import Mathlib

/-!
Shallow embedding of the KiCad symbol-library parser
(`src/symbols.rs`, `src/symbols/property.rs`, `src/symbols/pin.rs`).

Conventions of the embedding:
* Rust `Result<T, anyhow::Error>` becomes `Except String T`; the embedded
  error strings reproduce the `bail!` format strings, with the `{...:?}`
  debug payloads dropped.
* Rust `f32` values are modelled as exact rationals: a numeric literal in
  the input stands for the decimal rational it denotes (IEEE rounding is not
  modelled; the special spellings inf/nan are likewise not modelled, no
  claim exercises them).
* Rust `u64`/`u32` parses are modelled with their overflow bound.
* Rust panics (`unimplemented!()`, out-of-bounds indexing) are modelled as
  `Except.error` values, so "no value is produced" is observable.
* The `for` loops over segmented child expressions, which mutate local
  accumulator variables and may `bail!`, become `List.foldlM` over an
  explicitly named step function in the `Except` monad; the accumulator
  record mirrors the Rust local variables.
-/

/-- `Token` from `src/symbols.rs`: open marker, close marker, or word. -/
inductive Token where
  | openParen
  | closeParen
  | word (s : String)
deriving DecidableEq, Repr

/-- `type Expression = Vec<Token>` from `src/symbols.rs`. -/
abbrev Expression := List Token

/-- Characters that terminate a bare word in `tokenise`
(whitespace or a parenthesis marker). -/
def isWordBreak (c : Char) : Bool :=
  c = ' ' || c = '\t' || c = '\n' || c = '\r' || c = '(' || c = ')'

/-- The quoted-word loop of `tokenise`: consume characters until the next
double quote (which is dropped), returning the word and the rest. -/
def readQuotedWord : List Char → List Char × List Char
  | [] => ([], [])
  | c :: cs =>
    if c = '"' then ([], cs)
    else
      let r := readQuotedWord cs
      (c :: r.1, r.2)

theorem readQuotedWord_length_le (cs : List Char) :
    (readQuotedWord cs).2.length ≤ cs.length := by
  induction cs with
  | nil => simp [readQuotedWord]
  | cons c cs ih =>
    by_cases h : c = '"' <;> simp [readQuotedWord, h] <;> omega

theorem dropWhile_length_le (p : Char → Bool) (cs : List Char) :
    (cs.dropWhile p).length ≤ cs.length := by
  induction cs with
  | nil => simp
  | cons c cs ih =>
    by_cases h : p c <;> simp [List.dropWhile, h] <;> omega

/-- `tokenise` from `src/symbols.rs`, on the character list of the input.
The `fuel` argument bounds the number of iterations of the Rust `while`
loop; each iteration consumes at least one character, so `cs.length` fuel
never runs out (the Rust loop terminates for the same reason). -/
def tokeniseAux : Nat → List Char → List Token
  | 0, _ => []
  | _, [] => []
  | fuel + 1, c :: cs =>
    if c = '(' then Token.openParen :: tokeniseAux fuel cs
    else if c = ')' then Token.closeParen :: tokeniseAux fuel cs
    else if c = ' ' ∨ c = '\t' ∨ c = '\n' ∨ c = '\r' then tokeniseAux fuel cs
    else if c = '"' then
      let r := readQuotedWord cs
      Token.word (String.mk r.1) :: tokeniseAux fuel r.2
    else
      Token.word (String.mk (c :: cs.takeWhile (fun d => !isWordBreak d))) ::
        tokeniseAux fuel (cs.dropWhile (fun d => !isWordBreak d))

/-- `tokenise` from `src/symbols.rs`. (The Rust signature returns a
`Result`, but no error path exists; the `Ok` wrapper is dropped.) -/
def tokenise (input : String) : List Token :=
  tokeniseAux input.data.length input.data

/-- The `while` loop of `subdivide_expression`: `cur` is `current_symbol`,
`depth` is `open_count` (an `i32`, it may go negative). A close marker is
appended to the accumulator first; if the depth before decrementing is
exactly 1 the accumulator is emitted and reset. -/
def subdivideAux (ts : List Token) (cur : List Token) (depth : Int) : List Expression :=
  match ts with
  | [] => []
  | Token.openParen :: ts => subdivideAux ts (cur ++ [Token.openParen]) (depth + 1)
  | Token.closeParen :: ts =>
    if depth = 1 then (cur ++ [Token.closeParen]) :: subdivideAux ts [] (depth - 1)
    else subdivideAux ts (cur ++ [Token.closeParen]) (depth - 1)
  | Token.word w :: ts => subdivideAux ts (cur ++ [Token.word w]) depth

/-- `subdivide_expression` from `src/symbols.rs`. -/
def subdivide_expression (expression : Expression) : List Expression :=
  subdivideAux expression [] 0

/-- `check_token_vec_healthy` from `src/symbols.rs` (defined in the source
but never called): equal numbers of open and close markers. -/
def check_token_vec_healthy (tokens : List Token) : Bool :=
  tokens.countP (fun t => t = Token.openParen) =
    tokens.countP (fun t => t = Token.closeParen)

/-- Rust `str::parse::<u64>`: optional leading plus sign, then a nonempty
run of decimal digits, rejecting values that overflow 64 bits. -/
def parseU64 (s : String) : Option Nat :=
  let cs := match s.data with
    | '+' :: rest => rest
    | cs => cs
  if cs.isEmpty then none
  else if cs.all Char.isDigit then
    let v := cs.foldl (fun a c => a * 10 + (c.toNat - 48)) 0
    if v < 2 ^ 64 then some v else none
  else none

/-- Rust `str::parse::<u32>`: as `parseU64` with the 32-bit bound. -/
def parseU32 (s : String) : Option Nat :=
  let cs := match s.data with
    | '+' :: rest => rest
    | cs => cs
  if cs.isEmpty then none
  else if cs.all Char.isDigit then
    let v := cs.foldl (fun a c => a * 10 + (c.toNat - 48)) 0
    if v < 2 ^ 32 then some v else none
  else none

/-- Numeric value of a digit run. -/
def digitsVal (ds : List Char) : Nat :=
  ds.foldl (fun a c => a * 10 + (c.toNat - 48)) 0

/-- Optional exponent suffix of a float literal: empty, or `e`/`E`, an
optional sign, and a nonempty run of digits consuming the whole rest. -/
def parseExponent (cs : List Char) : Option Int :=
  match cs with
  | [] => some 0
  | c :: rest =>
    if c = 'e' ∨ c = 'E' then
      let (sgn, ds) : Int × List Char := match rest with
        | '-' :: ds => (-1, ds)
        | '+' :: ds => (1, ds)
        | ds => (1, ds)
      if ds.isEmpty then none
      else if ds.all Char.isDigit then some (sgn * digitsVal ds) else none
    else none

/-- The exact rational `(n / d) * 10 ^ ex`, built with `mkRat`. -/
def applyExponent (n : Nat) (d : Nat) (ex : Int) : ℚ :=
  if 0 ≤ ex then mkRat (n * 10 ^ ex.toNat) d
  else mkRat n (d * 10 ^ (-ex).toNat)

/-- Unsigned decimal part of a float literal: digits, an optional point
with further digits (at least one digit in total), optional exponent.
The denoted value is the exact rational
`(intPart * 10 ^ |fracPart| + fracPart) / 10 ^ |fracPart| * 10 ^ ex`. -/
def parseDecimal (cs : List Char) : Option ℚ :=
  let ip := cs.takeWhile Char.isDigit
  let rest := cs.dropWhile Char.isDigit
  match rest with
  | '.' :: rest2 =>
    let fp := rest2.takeWhile Char.isDigit
    let rest3 := rest2.dropWhile Char.isDigit
    if ip.isEmpty ∧ fp.isEmpty then none
    else
      (parseExponent rest3).map fun ex =>
        applyExponent (digitsVal ip * 10 ^ fp.length + digitsVal fp) (10 ^ fp.length) ex
  | _ =>
    if ip.isEmpty then none
    else (parseExponent rest).map fun ex => applyExponent (digitsVal ip) 1 ex

/-- Rust `str::parse::<f32>`, modelled as the exact decimal rational:
optional sign then `parseDecimal`. -/
def parseF32 (s : String) : Option ℚ :=
  match s.data with
  | '-' :: rest => (parseDecimal rest).map (fun q => -q)
  | '+' :: rest => parseDecimal rest
  | cs => parseDecimal cs

/-- Rust `str::parse::<String>` (`FromStr` for `String`): never fails. -/
def parseStringValue (s : String) : Option String :=
  some s

/-- `parse_parameter_from_expression` from `src/symbols.rs`, generic over
the scalar parser standing for `T::from_str`. -/
def parse_parameter_from_expression {α : Type} (parse : String → Option α)
    (expression : Expression) (parameter : String) : Except String α :=
  if expression.length < 4 then
    .error "Version expression does not contain four entries"
  else if expression.get? 0 ≠ some Token.openParen then
    .error "Version expression does not start with opening parentheses"
  else if expression.get? 1 ≠ some (Token.word parameter) then
    .error ("Expression does not contain " ++ parameter)
  else
    match expression.get? 2 with
    | some (Token.word value) =>
      match parse value with
      | some v => .ok v
      | none => .error "Could not parse value"
    | _ => .error "No version found"

/-- `check_expression_validity` from `src/symbols/property.rs`. -/
def check_expression_validity (expression : Expression) (property : String) :
    Except String Unit :=
  if expression.length < 2 then
    .error "Expression smaller than two"
  else if ¬ (expression.head? = some Token.openParen ∧
      expression.get? 1 = some (Token.word property)) then
    .error "Not a valid KiCad symbol"
  else
    .ok ()

/-- `get_expression_first_value` from `src/symbols/property.rs`. -/
def get_expression_first_value (expression : Expression) : Except String Token :=
  if expression.length < 2 then
    .error "Expression smaller than two"
  else if expression.head? ≠ some Token.openParen then
    .error "Expression does not start with opening parenthesis"
  else
    match expression.get? 1 with
    | some t => .ok t
    | none => .error "Expression smaller than two"

/-- Lift an optional scalar-parse result into the error monad, standing
for Rust's `?` on a `parse::<T>()` result. -/
def liftParse {α : Type} (o : Option α) (msg : String) : Except String α :=
  match o with
  | some v => .ok v
  | none => .error msg

/-- `KiCadLocation` from `src/symbols/property.rs`: `(f32, f32, f32)`. -/
abbrev KiCadLocation := ℚ × ℚ × ℚ

/-- `KiCadLocation::try_from_expression` (`at` keyword, three floats). -/
def KiCadLocation.try_from_expression (expression : Expression) :
    Except String KiCadLocation := do
  check_expression_validity expression "at"
  if expression.length < 5 then
    throw "Location expression should have five entries"
  else
    match expression.get? 2, expression.get? 3, expression.get? 4 with
    | some (Token.word x), some (Token.word y), some (Token.word z) => do
      let xv ← liftParse (parseF32 x) "invalid float literal"
      let yv ← liftParse (parseF32 y) "invalid float literal"
      let zv ← liftParse (parseF32 z) "invalid float literal"
      pure (xv, yv, zv)
    | some (Token.word _), some (Token.word _), _ => throw "Location does not contain z"
    | some (Token.word _), _, _ => throw "Location does not contain y"
    | _, _, _ => throw "Location does not contain x"

/-- `KiCadFontSize` from `src/symbols/property.rs`. -/
structure KiCadFontSize where
  width : ℚ
  height : ℚ
deriving DecidableEq, Repr

/-- `KiCadFontSize::try_from_expression` (`size` keyword, exactly five
tokens, two floats). -/
def KiCadFontSize.try_from_expression (expression : Expression) :
    Except String KiCadFontSize := do
  check_expression_validity expression "size"
  if expression.length ≠ 5 then
    throw "Font size expression should have four entries"
  else
    match expression.get? 2, expression.get? 3 with
    | some (Token.word width), some (Token.word height) => do
      let w ← liftParse (parseF32 width) "invalid float literal"
      let h ← liftParse (parseF32 height) "invalid float literal"
      pure ⟨w, h⟩
    | some (Token.word _), _ => throw "Font size does not contain height"
    | _, _ => throw "Font size does not contain width"

/-- `KiCadFont` from `src/symbols/property.rs`. -/
structure KiCadFont where
  font_size : Option KiCadFontSize
  bold : Bool
  italic : Bool
  subscript : Bool
  superscript : Bool
  overbar : Bool
  underline : Bool
deriving DecidableEq, Repr

/-- Initial state of the mutable locals in `KiCadFont::try_from_expression`. -/
def KiCadFont.start : KiCadFont :=
  ⟨none, false, false, false, false, false, false⟩

/-- One iteration of the child loop of `KiCadFont::try_from_expression`. -/
def KiCadFont.step (st : KiCadFont) (expression : Expression) :
    Except String KiCadFont :=
  match expression.get? 1 with
  | some (Token.word property) =>
    if property = "size" then do
      let s ← KiCadFontSize.try_from_expression expression
      pure { st with font_size := some s }
    else if property = "bold" then pure { st with bold := true }
    else if property = "italic" then pure { st with italic := true }
    else if property = "subscript" then pure { st with subscript := true }
    else if property = "superscript" then pure { st with superscript := true }
    else if property = "overbar" then pure { st with overbar := true }
    else if property = "underline" then pure { st with underline := true }
    else .error ("Not a valid KiCad font property: " ++ property)
  | _ => pure st

/-- `KiCadFont::try_from_expression`. -/
def KiCadFont.try_from_expression (expression : Expression) :
    Except String KiCadFont := do
  check_expression_validity expression "font"
  (subdivide_expression (expression.drop 2)).foldlM KiCadFont.step KiCadFont.start

/-- `KiCadEffectsJustify` from `src/symbols/property.rs`. -/
inductive KiCadEffectsJustify where
  | bottom
  | top
  | left
  | right
deriving DecidableEq, Repr

/-- `KiCadEffects` from `src/symbols/property.rs`. -/
structure KiCadEffects where
  font : Option KiCadFont
  hide : Bool
  justify : List KiCadEffectsJustify
deriving DecidableEq, Repr

/-- Initial state of the mutable locals in `KiCadEffects::try_from_expression`. -/
def KiCadEffects.start : KiCadEffects :=
  ⟨none, false, []⟩

/-- One position of the `justify` inner loop: a word is mapped
case-sensitively, a marker is a value error. -/
def parseJustifyValue (justify : List KiCadEffectsJustify) (t : Token) :
    Except String (List KiCadEffectsJustify) :=
  match t with
  | Token.word v =>
    if v = "bottom" then .ok (justify ++ [KiCadEffectsJustify.bottom])
    else if v = "top" then .ok (justify ++ [KiCadEffectsJustify.top])
    else if v = "left" then .ok (justify ++ [KiCadEffectsJustify.left])
    else if v = "right" then .ok (justify ++ [KiCadEffectsJustify.right])
    else .error ("Not a valid KiCad effects justify value: " ++ v)
  | _ => .error "Justify does not contain value"

/-- One iteration of the child loop of `KiCadEffects::try_from_expression`.
The `justify` branch reads positions 2 through `len - 2` of the child. -/
def KiCadEffects.step (st : KiCadEffects) (expression : Expression) :
    Except String KiCadEffects :=
  match expression.get? 1 with
  | some (Token.word property) =>
    if property = "font" then do
      let f ← KiCadFont.try_from_expression expression
      pure { st with font := some f }
    else if property = "justify" then
      if expression.length < 3 then .error "Justify does not contain value"
      else do
        let j ← ((expression.drop 2).take (expression.length - 3)).foldlM
          parseJustifyValue st.justify
        pure { st with justify := j }
    else if property = "hide" then pure { st with hide := true }
    else .error ("Not a valid KiCad effects property: " ++ property)
  | _ => pure st

/-- `KiCadEffects::try_from_expression`. -/
def KiCadEffects.try_from_expression (expression : Expression) :
    Except String KiCadEffects := do
  check_expression_validity expression "effects"
  (subdivide_expression (expression.drop 2)).foldlM KiCadEffects.step KiCadEffects.start

/-- `KiCadSingleValueProperty` from `src/symbols/property.rs`. -/
inductive KiCadSingleValueProperty where
  | offset (v : ℚ)
  | inBom (b : Bool)
  | onBoard (b : Bool)
  | excludeFromSim (b : Bool)
deriving DecidableEq, Repr

/-- `try_parse_string_to_bool` from `src/symbols/property.rs`. -/
def try_parse_string_to_bool (value : String) : Except String Bool :=
  if value = "yes" then .ok true
  else if value = "no" then .ok false
  else .error ("Boolean value not yes or no: " ++ value)

/-- `KiCadSingleValueProperty::try_from_expression`. -/
def KiCadSingleValueProperty.try_from_expression (expression : Expression) :
    Except String KiCadSingleValueProperty := do
  let t ← get_expression_first_value expression
  match t with
  | Token.word prop =>
    match expression.get? 2 with
    | some (Token.word value) =>
      if prop = "offset" then do
        let v ← liftParse (parseF32 value) "invalid float literal"
        pure (KiCadSingleValueProperty.offset v)
      else if prop = "in_bom" then do
        let b ← try_parse_string_to_bool value
        pure (KiCadSingleValueProperty.inBom b)
      else if prop = "on_board" then do
        let b ← try_parse_string_to_bool value
        pure (KiCadSingleValueProperty.onBoard b)
      else if prop = "exclude_from_sim" then do
        let b ← try_parse_string_to_bool value
        pure (KiCadSingleValueProperty.excludeFromSim b)
      else
        throw ("Not a valid option for KiCadSingleValueProperty: " ++ prop ++ ", " ++ value)
    | some _ => throw "Expression second value not a word"
    | none => throw "Could not get expression second value"
  | _ => throw "Expression second Token is not a word"

/-- `Offset` from `src/symbols/property.rs`. -/
structure Offset where
  val : ℚ
deriving DecidableEq, Repr

/-- `Offset::try_from_expression`. -/
def Offset.try_from_expression (expression : Expression) : Except String Offset := do
  check_expression_validity expression "offset"
  match expression.get? 2 with
  | some (Token.word offset) => do
    let v ← liftParse (parseF32 offset) "invalid float literal"
    pure ⟨v⟩
  | _ => throw "Offset does not contain value"

/-- `KiCadPinNames` from `src/symbols/property.rs`. -/
structure KiCadPinNames where
  offset : Offset
deriving DecidableEq, Repr

/-- `KiCadPinNames::try_from_expression`. When the remainder does not
segment into exactly one child, the Rust code panics via
`unimplemented!()`; the panic is modelled as an error (no value is
produced either way). -/
def KiCadPinNames.try_from_expression (expression : Expression) :
    Except String KiCadPinNames := do
  check_expression_validity expression "pin_names"
  match subdivide_expression (expression.drop 2) with
  | [e] => do
    let o ← Offset.try_from_expression e
    pure ⟨o⟩
  | _ => throw "not implemented"

/-- `KiCadStrokeType` from `src/symbols/property.rs`. -/
inductive KiCadStrokeType where
  | default
deriving DecidableEq, Repr

/-- `FromStr for KiCadStrokeType`: case-insensitive `default`. -/
def KiCadStrokeType.from_str (s : String) : Except String KiCadStrokeType :=
  if s.toLower = "default" then .ok KiCadStrokeType.default
  else .error ("Not a valid KiCad stroke type: " ++ s)

/-- `KiCadStroke` from `src/symbols/property.rs`. -/
structure KiCadStroke where
  width : Option ℚ
  stroke_type : Option KiCadStrokeType
deriving DecidableEq, Repr

/-- Initial state of the mutable locals in `KiCadStroke::try_from_expression`. -/
def KiCadStroke.start : KiCadStroke :=
  ⟨none, none⟩

/-- One iteration of the child loop of `KiCadStroke::try_from_expression`. -/
def KiCadStroke.step (st : KiCadStroke) (expression : Expression) :
    Except String KiCadStroke :=
  match expression.get? 1 with
  | some (Token.word property) =>
    if property = "width" then
      match expression.get? 2 with
      | some (Token.word width_value) => do
        let w ← liftParse (parseF32 width_value) "invalid float literal"
        pure { st with width := some w }
      | _ => .error "Stroke does not contain width"
    else if property = "type" then
      match expression.get? 2 with
      | some (Token.word stroke_type_value) => do
        let t ← KiCadStrokeType.from_str stroke_type_value
        pure { st with stroke_type := some t }
      | _ => .error "Stroke does not contain type"
    else .error ("Not a valid KiCad stroke property: " ++ property)
  | _ => pure st

/-- `KiCadStroke::try_from_expression`. -/
def KiCadStroke.try_from_expression (expression : Expression) :
    Except String KiCadStroke := do
  check_expression_validity expression "stroke"
  (subdivide_expression (expression.drop 2)).foldlM KiCadStroke.step KiCadStroke.start

/-- `KiCadFillType` from `src/symbols/property.rs`. -/
inductive KiCadFillType where
  | background
  | outline
  | none
deriving DecidableEq, Repr

/-- `FromStr for KiCadFillType`: case-insensitive. -/
def KiCadFillType.from_str (s : String) : Except String KiCadFillType :=
  if s.toLower = "background" then .ok KiCadFillType.background
  else if s.toLower = "outline" then .ok KiCadFillType.outline
  else if s.toLower = "none" then .ok KiCadFillType.none
  else .error ("Not a valid KiCad fill type: " ++ s)

/-- `KiCadFill` from `src/symbols/property.rs`. -/
structure KiCadFill where
  fill_type : Option KiCadFillType
deriving DecidableEq, Repr

/-- Initial state of the mutable local in `KiCadFill::try_from_expression`. -/
def KiCadFill.start : KiCadFill :=
  ⟨Option.none⟩

/-- One iteration of the child loop of `KiCadFill::try_from_expression`. -/
def KiCadFill.step (st : KiCadFill) (expression : Expression) :
    Except String KiCadFill :=
  match expression.get? 1 with
  | some (Token.word property) =>
    if property = "type" then
      match expression.get? 2 with
      | some (Token.word fill_type_value) => do
        let t ← KiCadFillType.from_str fill_type_value
        pure { st with fill_type := some t }
      | _ => .error "Fill does not contain type"
    else .error ("Not a valid KiCad fill property: " ++ property)
  | _ => pure st

/-- `KiCadFill::try_from_expression`. -/
def KiCadFill.try_from_expression (expression : Expression) :
    Except String KiCadFill := do
  check_expression_validity expression "fill"
  (subdivide_expression (expression.drop 2)).foldlM KiCadFill.step KiCadFill.start

/-- `KiCad2DPoint` from `src/symbols/property.rs`. -/
structure KiCad2DPoint where
  x : ℚ
  y : ℚ
deriving DecidableEq, Repr

/-- `KiCadXY` from `src/symbols/property.rs`. -/
structure KiCadXY where
  point : KiCad2DPoint
deriving DecidableEq, Repr

/-- `type KiCadPolylinePts = Vec<KiCadXY>`. -/
abbrev KiCadPolylinePts := List KiCadXY

/-- One iteration of the child loop of
`KiCadPolylinePts::try_from_expression`. -/
def KiCadPolylinePts.step (pts : KiCadPolylinePts) (expression : Expression) :
    Except String KiCadPolylinePts :=
  match expression.get? 1 with
  | some (Token.word property) =>
    if property = "xy" then
      match expression.get? 2 with
      | some (Token.word x) =>
        match expression.get? 3 with
        | some (Token.word y) => do
          let xv ← liftParse (parseF32 x) "invalid float literal"
          let yv ← liftParse (parseF32 y) "invalid float literal"
          pure (pts ++ [⟨⟨xv, yv⟩⟩])
        | _ => .error "Polyline does not contain y"
      | _ => .error "Polyline does not contain x"
    else .error ("Not a valid KiCad polyline pts property: " ++ property)
  | _ => pure pts

/-- `KiCadPolylinePts::try_from_expression`. -/
def KiCadPolylinePts.try_from_expression (expression : Expression) :
    Except String KiCadPolylinePts := do
  check_expression_validity expression "pts"
  (subdivide_expression (expression.drop 2)).foldlM KiCadPolylinePts.step []

/-- `KiCadPolyline` from `src/symbols/property.rs`. -/
structure KiCadPolyline where
  pts : List KiCadXY
  stroke : Option KiCadStroke
  fill : Option KiCadFill
deriving DecidableEq, Repr

/-- Initial state of the mutable locals in `KiCadPolyline::try_from_expression`. -/
def KiCadPolyline.start : KiCadPolyline :=
  ⟨[], none, none⟩

/-- One iteration of the child loop of `KiCadPolyline::try_from_expression`. -/
def KiCadPolyline.step (st : KiCadPolyline) (expression : Expression) :
    Except String KiCadPolyline :=
  match expression.get? 1 with
  | some (Token.word property) =>
    if property = "pts" then do
      let p ← KiCadPolylinePts.try_from_expression expression
      pure { st with pts := p }
    else if property = "stroke" then do
      let s ← KiCadStroke.try_from_expression expression
      pure { st with stroke := some s }
    else if property = "fill" then do
      let f ← KiCadFill.try_from_expression expression
      pure { st with fill := some f }
    else .error ("Not a valid KiCad polyline property: " ++ property)
  | _ => pure st

/-- `KiCadPolyline::try_from_expression`. -/
def KiCadPolyline.try_from_expression (expression : Expression) :
    Except String KiCadPolyline := do
  check_expression_validity expression "polyline"
  (subdivide_expression (expression.drop 2)).foldlM KiCadPolyline.step KiCadPolyline.start

/-- `KiCadText` from `src/symbols/property.rs`. -/
structure KiCadText where
  text : String
  location : KiCadLocation
  effects : Option KiCadEffects
deriving DecidableEq, Repr

/-- The mutable locals of `KiCadText::try_from_expression`
(`location` is checked for presence only after the loop). -/
structure KiCadTextAcc where
  location : Option KiCadLocation
  effects : Option KiCadEffects
deriving DecidableEq, Repr

/-- One iteration of the child loop of `KiCadText::try_from_expression`. -/
def KiCadText.step (st : KiCadTextAcc) (expression : Expression) :
    Except String KiCadTextAcc :=
  match expression.get? 1 with
  | some (Token.word property) =>
    if property = "effects" then do
      let e ← KiCadEffects.try_from_expression expression
      pure { st with effects := some e }
    else if property = "at" then do
      let l ← KiCadLocation.try_from_expression expression
      pure { st with location := some l }
    else .error ("Not a valid KiCad text property: " ++ property)
  | _ => pure st

/-- `KiCadText::try_from_expression`. -/
def KiCadText.try_from_expression (expression : Expression) :
    Except String KiCadText := do
  check_expression_validity expression "text"
  match expression.get? 2 with
  | some (Token.word text) => do
    let st ← (subdivide_expression (expression.drop 3)).foldlM KiCadText.step ⟨none, none⟩
    match st.location with
    | some location => pure ⟨text, location, st.effects⟩
    | none => throw "Text does not contain location"
  | _ => throw "Text does not contain text"

/-- `KiCadPropertyType` from `src/symbols/property.rs`. -/
inductive KiCadPropertyType where
  | reference
  | value
  | footprint
  | datasheet
  | description
  | kiLocked
  | kiKeywords
  | kiFpFilters
  | partRev
  | standard
  | maximumPackageHeight
  | manufacturer
deriving DecidableEq, Repr

/-- `FromStr for KiCadPropertyType`, derived by strum: PascalCase
spellings, with the explicitly serialized exceptions. Matching is
case-sensitive and exact. -/
def KiCadPropertyType.from_str (s : String) : Except String KiCadPropertyType :=
  if s = "Reference" then .ok KiCadPropertyType.reference
  else if s = "Value" then .ok KiCadPropertyType.value
  else if s = "Footprint" then .ok KiCadPropertyType.footprint
  else if s = "Datasheet" then .ok KiCadPropertyType.datasheet
  else if s = "Description" then .ok KiCadPropertyType.description
  else if s = "ki_locked" then .ok KiCadPropertyType.kiLocked
  else if s = "ki_keywords" then .ok KiCadPropertyType.kiKeywords
  else if s = "ki_fp_filters" then .ok KiCadPropertyType.kiFpFilters
  else if s = "PARTREV" then .ok KiCadPropertyType.partRev
  else if s = "STANDARD" then .ok KiCadPropertyType.standard
  else if s = "MAXIMUM_PACKAGE_HEIGHT" then .ok KiCadPropertyType.maximumPackageHeight
  else if s = "MANUFACTURER" then .ok KiCadPropertyType.manufacturer
  else .error "Matching variant not found"

/-- `KiCadPropertyId` from `src/symbols/property.rs`. -/
structure KiCadPropertyId where
  val : Nat
deriving DecidableEq, Repr

/-- `KiCadPropertyId::try_from_expression`. -/
def KiCadPropertyId.try_from_expression (expression : Expression) :
    Except String KiCadPropertyId := do
  check_expression_validity expression "id"
  if expression.length < 4 then
    throw "Property ID expression should have four entries"
  else
    match expression.get? 2 with
    | some (Token.word id) => do
      let v ← liftParse (parseU32 id) "invalid digit found in string"
      pure ⟨v⟩
    | _ => throw "Property ID does not contain id"

/-- `KiCadProperty` from `src/symbols/property.rs`. The record doubles as
the state of `KiCadPropertyBuilder`: `new` fixes `property_type` and
`value` and defaults the optional fields, the setters replace them, and
`build` returns the record unchanged. -/
structure KiCadProperty where
  property_type : KiCadPropertyType
  value : String
  id : Option KiCadPropertyId
  location : Option KiCadLocation
  effects : Option KiCadEffects
deriving DecidableEq, Repr

/-- One iteration of the child loop of `KiCadProperty::try_from_expression`. -/
def KiCadProperty.step (st : KiCadProperty) (expression : Expression) :
    Except String KiCadProperty :=
  match expression.get? 1 with
  | some (Token.word property) =>
    if property = "id" then do
      let i ← KiCadPropertyId.try_from_expression expression
      pure { st with id := some i }
    else if property = "at" then do
      let l ← KiCadLocation.try_from_expression expression
      pure { st with location := some l }
    else if property = "effects" then do
      let e ← KiCadEffects.try_from_expression expression
      pure { st with effects := some e }
    else .error ("Not a valid KiCad property: " ++ property)
  | _ => pure st

/-- `KiCadProperty::try_from_expression`. -/
def KiCadProperty.try_from_expression (expression : Expression) :
    Except String KiCadProperty := do
  check_expression_validity expression "property"
  match expression.get? 2 with
  | some (Token.word property_type) =>
    match expression.get? 3 with
    | some (Token.word value) => do
      let pt ← KiCadPropertyType.from_str property_type
      (subdivide_expression (expression.drop 4)).foldlM KiCadProperty.step
        ⟨pt, value, none, none, none⟩
    | _ => throw "Property does not contain value"
  | _ => throw "Property does not contain type"

/-- `KiCadPinName` from `src/symbols/pin.rs`. -/
structure KiCadPinName where
  name : String
  effects : Option KiCadEffects
deriving DecidableEq, Repr

/-- One iteration of the child loop of `KiCadPinName::try_from_expression`. -/
def KiCadPinName.step (effects : Option KiCadEffects) (subexpression : Expression) :
    Except String (Option KiCadEffects) :=
  match subexpression.get? 1 with
  | some (Token.word property_name) =>
    if property_name = "effects" then do
      let e ← KiCadEffects.try_from_expression subexpression
      pure (some e)
    else .error ("Not a valid KiCad pin name property: " ++ property_name)
  | _ => pure effects

/-- `KiCadPinName::try_from_expression`: the name is read from position 2
and the children are segmented from position 3 on. -/
def KiCadPinName.try_from_expression (expression : Expression) :
    Except String KiCadPinName := do
  check_expression_validity expression "name"
  match expression.get? 2 with
  | some (Token.word name) => do
    let effects ← (subdivide_expression (expression.drop 3)).foldlM KiCadPinName.step none
    pure ⟨name, effects⟩
  | _ => throw "No pin name found"

/-- `KiCadPinNumber` from `src/symbols/pin.rs`. -/
structure KiCadPinNumber where
  number : String
  effects : Option KiCadEffects
deriving DecidableEq, Repr

/-- One iteration of the child loop of `KiCadPinNumber::try_from_expression`. -/
def KiCadPinNumber.step (effects : Option KiCadEffects) (subexpression : Expression) :
    Except String (Option KiCadEffects) :=
  match subexpression.get? 1 with
  | some (Token.word property_name) =>
    if property_name = "effects" then do
      let e ← KiCadEffects.try_from_expression subexpression
      pure (some e)
    else .error ("Not a valid KiCad pin number property: " ++ property_name)
  | _ => pure effects

/-- `KiCadPinNumber::try_from_expression`. Faithful to the source: the
number is read from position 1 (the keyword position, unlike
`KiCadPinName`, which reads position 2) and the children are segmented
from position 2 on. -/
def KiCadPinNumber.try_from_expression (expression : Expression) :
    Except String KiCadPinNumber := do
  check_expression_validity expression "number"
  match expression.get? 1 with
  | some (Token.word number) => do
    let effects ← (subdivide_expression (expression.drop 2)).foldlM KiCadPinNumber.step none
    pure ⟨number, effects⟩
  | _ => throw "No pin number found"

/-- `KiCadPinType` from `src/symbols/pin.rs`. -/
inductive KiCadPinType where
  | passive
  | powerIn
  | powerOut
  | input
  | unspecified
deriving DecidableEq, Repr

/-- `FromStr for KiCadPinType`. -/
def KiCadPinType.from_str (s : String) : Except String KiCadPinType :=
  if s = "passive" then .ok KiCadPinType.passive
  else if s = "power_in" then .ok KiCadPinType.powerIn
  else if s = "power_out" then .ok KiCadPinType.powerOut
  else if s = "input" then .ok KiCadPinType.input
  else if s = "unspecified" then .ok KiCadPinType.unspecified
  else .error ("Not a valid KiCad pin type: " ++ s)

/-- `KiCadPinPolarity` from `src/symbols/pin.rs`. -/
inductive KiCadPinPolarity where
  | line
  | inverted
deriving DecidableEq, Repr

/-- `FromStr for KiCadPinPolarity`. -/
def KiCadPinPolarity.from_str (s : String) : Except String KiCadPinPolarity :=
  if s = "line" then .ok KiCadPinPolarity.line
  else if s = "inverted" then .ok KiCadPinPolarity.inverted
  else .error "Not a valid KiCad pin polarity"

/-- `KiCadPinLength` from `src/symbols/pin.rs`. -/
structure KiCadPinLength where
  val : ℚ
deriving DecidableEq, Repr

/-- `KiCadPinLength::try_from_expression`. -/
def KiCadPinLength.try_from_expression (expression : Expression) :
    Except String KiCadPinLength := do
  check_expression_validity expression "length"
  match expression.get? 2 with
  | some (Token.word length) => do
    let v ← liftParse (parseF32 length) "invalid float literal"
    pure ⟨v⟩
  | _ => throw "No pin length found"

/-- `KiCadPin` from `src/symbols/pin.rs`. -/
structure KiCadPin where
  pin_type : KiCadPinType
  pin_polarity : KiCadPinPolarity
  location : Option KiCadLocation
  length : Option KiCadPinLength
  name : Option KiCadPinName
  number : Option KiCadPinNumber
deriving DecidableEq, Repr

/-- The mutable locals of the child loop of `KiCadPin::try_from_expression`. -/
structure KiCadPinAcc where
  pin_name : Option KiCadPinName
  pin_number : Option KiCadPinNumber
  pin_location : Option KiCadLocation
  pin_length : Option KiCadPinLength
deriving DecidableEq, Repr

/-- One iteration of the child loop of `KiCadPin::try_from_expression`:
unlike every other composite, the default branch is `_ => {}` — an
unrecognized child keyword is silently ignored. -/
def KiCadPin.step (st : KiCadPinAcc) (subexpression : Expression) :
    Except String KiCadPinAcc :=
  match subexpression.get? 1 with
  | some (Token.word property_name) =>
    if property_name = "name" then do
      let n ← KiCadPinName.try_from_expression subexpression
      pure { st with pin_name := some n }
    else if property_name = "number" then do
      let n ← KiCadPinNumber.try_from_expression subexpression
      pure { st with pin_number := some n }
    else if property_name = "at" then do
      let l ← KiCadLocation.try_from_expression subexpression
      pure { st with pin_location := some l }
    else if property_name = "length" then do
      let l ← KiCadPinLength.try_from_expression subexpression
      pure { st with pin_length := some l }
    else pure st
  | _ => pure st

/-- `KiCadPin::try_from_expression`. -/
def KiCadPin.try_from_expression (expression : Expression) :
    Except String KiCadPin := do
  check_expression_validity expression "pin"
  match expression.get? 2 with
  | some (Token.word pin_type) =>
    match expression.get? 3 with
    | some (Token.word pin_polarity) => do
      let pt ← KiCadPinType.from_str pin_type
      let pp ← KiCadPinPolarity.from_str pin_polarity
      let st ← (subdivide_expression (expression.drop 4)).foldlM KiCadPin.step
        ⟨none, none, none, none⟩
      pure ⟨pt, pp, st.pin_location, st.pin_length, st.pin_name, st.pin_number⟩
    | _ => throw "No pin polarity found"
  | _ => throw "No pin type found"

/-- `KiCadSubSymbol` from `src/symbols/property.rs`. The record doubles as
the state of the mutable locals of its child loop. -/
structure KiCadSubSymbol where
  polylines : List KiCadPolyline
  texts : List KiCadText
  pins : List KiCadPin
deriving DecidableEq, Repr

/-- One iteration of the child loop of `KiCadSubSymbol::try_from_expression`. -/
def KiCadSubSymbol.step (st : KiCadSubSymbol) (expression : Expression) :
    Except String KiCadSubSymbol :=
  match expression.get? 1 with
  | some (Token.word value) =>
    if value = "polyline" then do
      let p ← KiCadPolyline.try_from_expression expression
      pure { st with polylines := st.polylines ++ [p] }
    else if value = "text" then do
      let t ← KiCadText.try_from_expression expression
      pure { st with texts := st.texts ++ [t] }
    else if value = "pin" then do
      let p ← KiCadPin.try_from_expression expression
      pure { st with pins := st.pins ++ [p] }
    else .error ("Not a valid KiCad sub symbol property: " ++ value)
  | _ => pure st

/-- `KiCadSubSymbol::try_from_expression` (keyword `symbol`, children
segmented from position 2 on). -/
def KiCadSubSymbol.try_from_expression (expression : Expression) :
    Except String KiCadSubSymbol := do
  check_expression_validity expression "symbol"
  (subdivide_expression (expression.drop 2)).foldlM KiCadSubSymbol.step ⟨[], [], []⟩

/-- `KiCadSymbol` from `src/symbols/property.rs`. The record doubles as
the state of `KiCadSymbolBuilder`: `new` fixes `name` and defaults the
rest, the setters replace optional fields, `add_property` and
`add_sub_symbol` append, and `build` returns the record unchanged. -/
structure KiCadSymbol where
  name : String
  pin_names : Option KiCadPinNames
  exclude_from_sim : Option KiCadSingleValueProperty
  in_bom : Option KiCadSingleValueProperty
  on_board : Option KiCadSingleValueProperty
  properties : List KiCadProperty
  sub_symbols : List KiCadSubSymbol
deriving DecidableEq, Repr

/-- One iteration of the child loop of `KiCadSymbol::try_from_expression`. -/
def KiCadSymbol.step (st : KiCadSymbol) (expression : Expression) :
    Except String KiCadSymbol :=
  match expression.get? 1 with
  | some (Token.word value) =>
    if value = "pin_names" then do
      let p ← KiCadPinNames.try_from_expression expression
      pure { st with pin_names := some p }
    else if value = "exclude_from_sim" then do
      let p ← KiCadSingleValueProperty.try_from_expression expression
      pure { st with exclude_from_sim := some p }
    else if value = "in_bom" then do
      let p ← KiCadSingleValueProperty.try_from_expression expression
      pure { st with in_bom := some p }
    else if value = "on_board" then do
      let p ← KiCadSingleValueProperty.try_from_expression expression
      pure { st with on_board := some p }
    else if value = "property" then do
      let p ← KiCadProperty.try_from_expression expression
      pure { st with properties := st.properties ++ [p] }
    else if value = "symbol" then do
      let s ← KiCadSubSymbol.try_from_expression expression
      pure { st with sub_symbols := st.sub_symbols ++ [s] }
    else .error ("Not a valid KiCad symbol property: " ++ value)
  | _ => pure st

/-- `KiCadSymbol::try_from_expression`. The name is read by direct
indexing `&expression[2]`, which panics when the expression has exactly
two tokens; the panic is modelled as an error. -/
def KiCadSymbol.try_from_expression (expression : Expression) :
    Except String KiCadSymbol := do
  check_expression_validity expression "symbol"
  match expression.get? 2 with
  | some (Token.word name) =>
    (subdivide_expression (expression.drop 3)).foldlM KiCadSymbol.step
      ⟨name, none, none, none, none, [], []⟩
  | some _ => throw "Symbol has no name"
  | none => throw "index out of bounds"

/-- `KicadSymbolLib` from `src/symbols.rs`. The record doubles as the
state of the mutable locals of `from_file`. -/
structure KicadSymbolLib where
  version : Option Nat
  generator : Option String
  generator_version : Option ℚ
  symbols : List KiCadSymbol
deriving DecidableEq, Repr

/-- One iteration of the top-level child loop of
`KicadSymbolLib::from_file`. -/
def KicadSymbolLib.step (st : KicadSymbolLib) (expression : Expression) :
    Except String KicadSymbolLib :=
  match expression.get? 1 with
  | some (Token.word property) =>
    if property = "version" then do
      let v ← parse_parameter_from_expression parseU64 expression "version"
      pure { st with version := some v }
    else if property = "generator" then do
      let g ← parse_parameter_from_expression parseStringValue expression "generator"
      pure { st with generator := some g }
    else if property = "generator_version" then do
      let g ← parse_parameter_from_expression parseF32 expression "generator_version"
      pure { st with generator_version := some g }
    else if property = "symbol" then do
      let s ← KiCadSymbol.try_from_expression expression
      pure { st with symbols := st.symbols ++ [s] }
    else .error ("Not a valid KiCad symbol library property: " ++ property)
  | _ => pure st

/-- `KicadSymbolLib::from_file` from `src/symbols.rs`, with the file read
replaced by its text contents: tokenize, check the leading
`kicad_symbol_lib` keyword, segment the remainder, and fold the top-level
dispatch loop. -/
def KicadSymbolLib.fromText (content : String) : Except String KicadSymbolLib := do
  check_expression_validity (tokenise content) "kicad_symbol_lib"
  (subdivide_expression ((tokenise content).drop 2)).foldlM KicadSymbolLib.step
    ⟨none, none, none, []⟩

deriving instance DecidableEq for Except

set_option maxRecDepth 100000

/-- C1: parsing the library text
`(kicad_symbol_lib (version 20211014) (generator "test") (generator_version 7.0)
(symbol "R" (property "Reference" "R" (at 0 0 0))))` succeeds and returns a
`KicadSymbolLib` with version 20211014, generator `"test"`,
generator_version 7.0, and exactly one symbol named `"R"` whose single
property has key `Reference`, value `"R"`, and placement `(0, 0, 0)`. -/
theorem library_example_parses :
    KicadSymbolLib.fromText "(kicad_symbol_lib (version 20211014) (generator \"test\") (generator_version 7.0) (symbol \"R\" (property \"Reference\" \"R\" (at 0 0 0))))" =
      .ok ⟨some 20211014, some "test", some 7,
        [⟨"R", none, none, none, none,
          [⟨KiCadPropertyType.reference, "R", none, some (0, 0, 0), none⟩], []⟩]⟩ := by
  decide

/-- C2: evaluation of `KiCadPin::try_from_expression` at the pin text of
the claim. The parse succeeds with type `passive`, polarity `line`,
placement `(0, 0, 0)` and length 2.54, but the returned number is the
keyword string `"number"` — not `"1"` as the claim states — because the
source reads the number from token position 1 instead of position 2, and
the number's `effects` child is lost for the same off-by-one reason. -/
theorem pin_example_number_is_keyword :
    KiCadPin.try_from_expression (tokenise "(pin passive line (at 0 0 0) (length 2.54) (name \"A\" (effects)) (number \"1\" (effects)))") =
      .ok ⟨KiCadPinType.passive, KiCadPinPolarity.line, some (0, 0, 0),
        some ⟨(2.54 : ℚ)⟩, some ⟨"A", some ⟨none, false, []⟩⟩,
        some ⟨"number", none⟩⟩ := by
  have h : (2.54 : ℚ) = mkRat 254 100 := by
    rw [Rat.mkRat_eq_div]; norm_num
  rw [h]
  decide

/-- C4: a library text whose token sequence is unbalanced (two open
markers, one close marker — the final closing parenthesis is missing
after the `version` child) is nevertheless parsed successfully: the
balance check `check_token_vec_healthy` exists in the source but is never
called, so no structural error is raised. -/
theorem unbalanced_library_accepted :
    check_token_vec_healthy (tokenise "(kicad_symbol_lib (version 20211014)") = false ∧
      KicadSymbolLib.fromText "(kicad_symbol_lib (version 20211014)" =
        .ok ⟨some 20211014, none, none, []⟩ := by
  decide

/-- C8: tokenizing `(a b "c d")` yields exactly open, word `a`, word `b`,
word `c d` (quotes dropped, inner space kept), close. -/
theorem tokenise_quoted_word_example :
    tokenise "(a b \"c d\")" =
      [Token.openParen, Token.word "a", Token.word "b", Token.word "c d",
        Token.closeParen] := by
  decide

/-- C7: the validity guard accepts an expression exactly when it has at
least two tokens, its first token is the open marker, and its second
token is a word equal to the expected keyword; every other expression is
rejected with an error. -/
theorem check_expression_validity_characterization :
    ∀ (e : Expression) (kw : String),
      (check_expression_validity e kw).isOk = true ↔
        2 ≤ e.length ∧ e.head? = some Token.openParen ∧
          e.get? 1 = some (Token.word kw) := by
  intro e kw
  unfold check_expression_validity
  by_cases h1 : e.length < 2
  · rw [if_pos h1]
    exact iff_of_false (by simp [Except.isOk, Except.toBool])
      (fun hc => absurd hc.1 (by omega))
  · rw [if_neg h1]
    by_cases h2 : e.head? = some Token.openParen ∧ e.get? 1 = some (Token.word kw)
    · rw [if_neg (not_not_intro h2)]
      exact iff_of_true rfl ⟨by omega, h2⟩
    · rw [if_pos h2]
      exact iff_of_false (by simp [Except.isOk, Except.toBool])
        (fun hc => h2 hc.2)

/-- C5: whenever the remainder of a `pin_names` expression (after the
open marker and the keyword) segments into a number of children different
from one, `KiCadPinNames::try_from_expression` never produces a
`KiCadPinNames` value — the zero-or-many-children path is the
`unimplemented!()` panic, modelled as a hard error. -/
theorem pin_names_rejects_wrong_child_count (e : Expression)
    (h : (subdivide_expression (e.drop 2)).length ≠ 1) :
    (KiCadPinNames.try_from_expression e).isOk = false := by
  unfold KiCadPinNames.try_from_expression
  cases hv : check_expression_validity e "pin_names" with
  | error msg => simp [hv, Except.isOk, Except.toBool, Bind.bind, Except.bind]
  | ok u =>
    cases hs : subdivide_expression (e.drop 2) with
    | nil => simp [hv, hs, Except.isOk, Except.toBool, Bind.bind, Except.bind]
    | cons a tl =>
      cases tl with
      | nil => rw [hs] at h; simp at h
      | cons b tl2 =>
        simp [hv, hs, Except.isOk, Except.toBool, Bind.bind, Except.bind]

/-- Witness for C5: `(pin_names)` has zero children and is rejected. -/
theorem pin_names_witness_check :
    (subdivide_expression (([Token.openParen, Token.word "pin_names",
        Token.closeParen] : Expression).drop 2)).length ≠ 1 ∧
      (KiCadPinNames.try_from_expression
        [Token.openParen, Token.word "pin_names", Token.closeParen]).isOk = false :=
  ⟨by decide, pin_names_rejects_wrong_child_count _ (by decide)⟩

/-- Evaluation of `get_expression_first_value` on an expression that
starts with the open marker: the second token is returned. -/
theorem get_expression_first_value_cons (t : Token) (l : List Token) :
    get_expression_first_value (Token.openParen :: t :: l) = .ok t := by
  unfold get_expression_first_value
  rw [if_neg (by simp), if_neg (by simp)]
  rfl

/-- C9: `(in_bom yes)` parses as a single-value flag to the boolean true,
and for each boolean flag keyword (`in_bom`, `on_board`,
`exclude_from_sim`) a value word that is neither the literal `yes` nor
`no` makes the parse fail with the value error naming that word. -/
theorem in_bom_yes_and_bool_value_rejection :
    KiCadSingleValueProperty.try_from_expression (tokenise "(in_bom yes)") =
        .ok (KiCadSingleValueProperty.inBom true) ∧
      (∀ (kw : String), kw ∈ (["in_bom", "on_board", "exclude_from_sim"] : List String) →
        ∀ (w : String), w ≠ "yes" → w ≠ "no" → ∀ (rest : List Token),
          KiCadSingleValueProperty.try_from_expression
              (Token.openParen :: Token.word kw :: Token.word w :: rest) =
            .error ("Boolean value not yes or no: " ++ w)) := by
  constructor
  · decide
  · intro kw hkw w hy hn rest
    simp only [List.mem_cons, List.not_mem_nil, or_false] at hkw
    rcases hkw with rfl | rfl | rfl <;>
      simp [KiCadSingleValueProperty.try_from_expression,
        get_expression_first_value_cons, try_parse_string_to_bool, hy, hn,
        Bind.bind, Except.bind]

/-- Witness for C9: `(in_bom maybe)` fails with the value error. -/
theorem in_bom_maybe_witness :
    KiCadSingleValueProperty.try_from_expression (tokenise "(in_bom maybe)") =
      .error ("Boolean value not yes or no: " ++ "maybe") := by
  rw [show tokenise "(in_bom maybe)" = Token.openParen :: Token.word "in_bom" ::
    Token.word "maybe" :: [Token.closeParen] from by decide]
  exact in_bom_yes_and_bool_value_rejection.2 "in_bom" (by decide) "maybe"
    (by decide) (by decide) [Token.closeParen]

/-- C10: in every child-dispatch loop (library, symbol, sub-symbol,
property, font, effects, stroke, fill, points, pin), a child expression
whose second token is not a word — the empty form, or a form whose second
token is a marker — is silently skipped: the step function returns the
accumulated state unchanged, raising no error, so parsing of the
remaining children continues even in composites whose policy for
unrecognized child keywords is a hard error. -/
theorem non_word_children_silently_skipped :
    ∀ (e : Expression), (∀ (w : String), e.get? 1 ≠ some (Token.word w)) →
      (∀ st, KicadSymbolLib.step st e = .ok st) ∧
      (∀ st, KiCadSymbol.step st e = .ok st) ∧
      (∀ st, KiCadSubSymbol.step st e = .ok st) ∧
      (∀ st, KiCadProperty.step st e = .ok st) ∧
      (∀ st, KiCadFont.step st e = .ok st) ∧
      (∀ st, KiCadEffects.step st e = .ok st) ∧
      (∀ st, KiCadStroke.step st e = .ok st) ∧
      (∀ st, KiCadFill.step st e = .ok st) ∧
      (∀ pts, KiCadPolylinePts.step pts e = .ok pts) ∧
      (∀ st, KiCadPin.step st e = .ok st) := by
  intro e h
  have h2 : ∀ (w : String), e[1]? ≠ some (Token.word w) := by
    simpa [List.get?_eq_getElem?] using h
  have key : e[1]? = none ∨ e[1]? = some Token.openParen ∨
      e[1]? = some Token.closeParen := by
    cases hg : e[1]? with
    | none => exact Or.inl rfl
    | some t =>
      cases t with
      | openParen => exact Or.inr (Or.inl rfl)
      | closeParen => exact Or.inr (Or.inr rfl)
      | word w => exact absurd hg (h2 w)
  refine ⟨?_, ?_, ?_, ?_, ?_, ?_, ?_, ?_, ?_, ?_⟩ <;>
    intro st <;>
      rcases key with hg | hg | hg <;>
        simp [KicadSymbolLib.step, KiCadSymbol.step, KiCadSubSymbol.step,
          KiCadProperty.step, KiCadFont.step, KiCadEffects.step,
          KiCadStroke.step, KiCadFill.step, KiCadPolylinePts.step,
          KiCadPin.step, hg, pure, Except.pure]

/-- Witness for C10: the empty form `()` is skipped by all ten loops. -/
theorem non_word_child_skip_witness :
    KicadSymbolLib.step ⟨none, none, none, []⟩ [Token.openParen, Token.closeParen] =
        .ok ⟨none, none, none, []⟩ ∧
      KiCadSymbol.step ⟨"R", none, none, none, none, [], []⟩
          [Token.openParen, Token.closeParen] =
        .ok ⟨"R", none, none, none, none, [], []⟩ ∧
      KiCadSubSymbol.step ⟨[], [], []⟩ [Token.openParen, Token.closeParen] =
        .ok ⟨[], [], []⟩ ∧
      KiCadProperty.step ⟨KiCadPropertyType.reference, "R", none, none, none⟩
          [Token.openParen, Token.closeParen] =
        .ok ⟨KiCadPropertyType.reference, "R", none, none, none⟩ ∧
      KiCadFont.step KiCadFont.start [Token.openParen, Token.closeParen] =
        .ok KiCadFont.start ∧
      KiCadEffects.step KiCadEffects.start [Token.openParen, Token.closeParen] =
        .ok KiCadEffects.start ∧
      KiCadStroke.step KiCadStroke.start [Token.openParen, Token.closeParen] =
        .ok KiCadStroke.start ∧
      KiCadFill.step KiCadFill.start [Token.openParen, Token.closeParen] =
        .ok KiCadFill.start ∧
      KiCadPolylinePts.step [] [Token.openParen, Token.closeParen] = .ok [] ∧
      KiCadPin.step ⟨none, none, none, none⟩ [Token.openParen, Token.closeParen] =
        .ok ⟨none, none, none, none⟩ := by
  have h := non_word_children_silently_skipped [Token.openParen, Token.closeParen]
    (by intro w; simp)
  exact ⟨h.1 _, h.2.1 _, h.2.2.1 _, h.2.2.2.1 _, h.2.2.2.2.1 _, h.2.2.2.2.2.1 _,
    h.2.2.2.2.2.2.1 _, h.2.2.2.2.2.2.2.1 _, h.2.2.2.2.2.2.2.2.1 _,
    h.2.2.2.2.2.2.2.2.2 _⟩

/-- C6: for a child expression whose keyword (second token) is a word not
in the recognized set, the composite child loops of font, effects,
stroke, fill, polyline points, polyline, text, property, symbol,
sub-symbol and library fail with the schema error naming that keyword,
while the pin child loop alone silently ignores such a child: its step
returns the state unchanged, and removing the child from the segmented
children does not change the pin loop's result, so a pin whose remaining
children parse still parses. -/
theorem unrecognized_child_keyword_policy :
    ∀ (e : Expression) (w : String), e.get? 1 = some (Token.word w) →
      (w ∉ (["size", "bold", "italic", "subscript", "superscript", "overbar",
          "underline"] : List String) →
        ∀ st, KiCadFont.step st e =
          .error ("Not a valid KiCad font property: " ++ w)) ∧
      (w ∉ (["font", "justify", "hide"] : List String) →
        ∀ st, KiCadEffects.step st e =
          .error ("Not a valid KiCad effects property: " ++ w)) ∧
      (w ∉ (["width", "type"] : List String) →
        ∀ st, KiCadStroke.step st e =
          .error ("Not a valid KiCad stroke property: " ++ w)) ∧
      (w ∉ (["type"] : List String) →
        ∀ st, KiCadFill.step st e =
          .error ("Not a valid KiCad fill property: " ++ w)) ∧
      (w ∉ (["xy"] : List String) →
        ∀ pts, KiCadPolylinePts.step pts e =
          .error ("Not a valid KiCad polyline pts property: " ++ w)) ∧
      (w ∉ (["pts", "stroke", "fill"] : List String) →
        ∀ st, KiCadPolyline.step st e =
          .error ("Not a valid KiCad polyline property: " ++ w)) ∧
      (w ∉ (["effects", "at"] : List String) →
        ∀ st, KiCadText.step st e =
          .error ("Not a valid KiCad text property: " ++ w)) ∧
      (w ∉ (["id", "at", "effects"] : List String) →
        ∀ st, KiCadProperty.step st e =
          .error ("Not a valid KiCad property: " ++ w)) ∧
      (w ∉ (["pin_names", "exclude_from_sim", "in_bom", "on_board", "property",
          "symbol"] : List String) →
        ∀ st, KiCadSymbol.step st e =
          .error ("Not a valid KiCad symbol property: " ++ w)) ∧
      (w ∉ (["polyline", "text", "pin"] : List String) →
        ∀ st, KiCadSubSymbol.step st e =
          .error ("Not a valid KiCad sub symbol property: " ++ w)) ∧
      (w ∉ (["version", "generator", "generator_version", "symbol"] : List String) →
        ∀ st, KicadSymbolLib.step st e =
          .error ("Not a valid KiCad symbol library property: " ++ w)) ∧
      (w ∉ (["name", "number", "at", "length"] : List String) →
        (∀ st, KiCadPin.step st e = .ok st) ∧
          ∀ (st : KiCadPinAcc) (l1 l2 : List Expression),
            (l1 ++ e :: l2).foldlM KiCadPin.step st =
              (l1 ++ l2).foldlM KiCadPin.step st) := by
  intro e w hw
  have hg : e[1]? = some (Token.word w) := by
    simpa [List.get?_eq_getElem?] using hw
  refine ⟨?_, ?_, ?_, ?_, ?_, ?_, ?_, ?_, ?_, ?_, ?_, ?_⟩
  case _ =>
    intro hmem st
    simp only [List.mem_cons, List.not_mem_nil, or_false] at hmem
    push_neg at hmem
    simp [KiCadFont.step, hg, hmem]
  case _ =>
    intro hmem st
    simp only [List.mem_cons, List.not_mem_nil, or_false] at hmem
    push_neg at hmem
    simp [KiCadEffects.step, hg, hmem]
  case _ =>
    intro hmem st
    simp only [List.mem_cons, List.not_mem_nil, or_false] at hmem
    push_neg at hmem
    simp [KiCadStroke.step, hg, hmem]
  case _ =>
    intro hmem st
    simp only [List.mem_cons, List.not_mem_nil, or_false] at hmem
    push_neg at hmem
    simp [KiCadFill.step, hg, hmem]
  case _ =>
    intro hmem pts
    simp only [List.mem_cons, List.not_mem_nil, or_false] at hmem
    push_neg at hmem
    simp [KiCadPolylinePts.step, hg, hmem]
  case _ =>
    intro hmem st
    simp only [List.mem_cons, List.not_mem_nil, or_false] at hmem
    push_neg at hmem
    simp [KiCadPolyline.step, hg, hmem]
  case _ =>
    intro hmem st
    simp only [List.mem_cons, List.not_mem_nil, or_false] at hmem
    push_neg at hmem
    simp [KiCadText.step, hg, hmem]
  case _ =>
    intro hmem st
    simp only [List.mem_cons, List.not_mem_nil, or_false] at hmem
    push_neg at hmem
    simp [KiCadProperty.step, hg, hmem]
  case _ =>
    intro hmem st
    simp only [List.mem_cons, List.not_mem_nil, or_false] at hmem
    push_neg at hmem
    simp [KiCadSymbol.step, hg, hmem]
  case _ =>
    intro hmem st
    simp only [List.mem_cons, List.not_mem_nil, or_false] at hmem
    push_neg at hmem
    simp [KiCadSubSymbol.step, hg, hmem]
  case _ =>
    intro hmem st
    simp only [List.mem_cons, List.not_mem_nil, or_false] at hmem
    push_neg at hmem
    simp [KicadSymbolLib.step, hg, hmem]
  case _ =>
    intro hmem
    simp only [List.mem_cons, List.not_mem_nil, or_false] at hmem
    push_neg at hmem
    have hstep : ∀ st, KiCadPin.step st e = .ok st := by
      intro st
      simp [KiCadPin.step, hg, hmem, pure, Except.pure]
    refine ⟨hstep, ?_⟩
    intro st l1 l2
    rw [List.foldlM_append, List.foldlM_append]
    congr 1
    funext s
    rw [List.foldlM_cons, hstep s]
    rfl

/-- Witness for C6: the keyword `frobnicate` is rejected by the eleven
strict loops and ignored by the pin loop. -/
theorem unrecognized_child_keyword_witness :
    KiCadFont.step KiCadFont.start
        [Token.openParen, Token.word "frobnicate", Token.closeParen] =
      .error ("Not a valid KiCad font property: " ++ "frobnicate") ∧
    KiCadEffects.step KiCadEffects.start
        [Token.openParen, Token.word "frobnicate", Token.closeParen] =
      .error ("Not a valid KiCad effects property: " ++ "frobnicate") ∧
    KiCadStroke.step KiCadStroke.start
        [Token.openParen, Token.word "frobnicate", Token.closeParen] =
      .error ("Not a valid KiCad stroke property: " ++ "frobnicate") ∧
    KiCadFill.step KiCadFill.start
        [Token.openParen, Token.word "frobnicate", Token.closeParen] =
      .error ("Not a valid KiCad fill property: " ++ "frobnicate") ∧
    KiCadPolylinePts.step []
        [Token.openParen, Token.word "frobnicate", Token.closeParen] =
      .error ("Not a valid KiCad polyline pts property: " ++ "frobnicate") ∧
    KiCadPolyline.step KiCadPolyline.start
        [Token.openParen, Token.word "frobnicate", Token.closeParen] =
      .error ("Not a valid KiCad polyline property: " ++ "frobnicate") ∧
    KiCadText.step ⟨none, none⟩
        [Token.openParen, Token.word "frobnicate", Token.closeParen] =
      .error ("Not a valid KiCad text property: " ++ "frobnicate") ∧
    KiCadProperty.step ⟨KiCadPropertyType.reference, "R", none, none, none⟩
        [Token.openParen, Token.word "frobnicate", Token.closeParen] =
      .error ("Not a valid KiCad property: " ++ "frobnicate") ∧
    KiCadSymbol.step ⟨"R", none, none, none, none, [], []⟩
        [Token.openParen, Token.word "frobnicate", Token.closeParen] =
      .error ("Not a valid KiCad symbol property: " ++ "frobnicate") ∧
    KiCadSubSymbol.step ⟨[], [], []⟩
        [Token.openParen, Token.word "frobnicate", Token.closeParen] =
      .error ("Not a valid KiCad sub symbol property: " ++ "frobnicate") ∧
    KicadSymbolLib.step ⟨none, none, none, []⟩
        [Token.openParen, Token.word "frobnicate", Token.closeParen] =
      .error ("Not a valid KiCad symbol library property: " ++ "frobnicate") ∧
    KiCadPin.step ⟨none, none, none, none⟩
        [Token.openParen, Token.word "frobnicate", Token.closeParen] =
      .ok ⟨none, none, none, none⟩ ∧
    ([[Token.openParen, Token.word "frobnicate", Token.closeParen]] :
        List Expression).foldlM KiCadPin.step
        (⟨none, none, none, none⟩ : KiCadPinAcc) =
      ([] : List Expression).foldlM KiCadPin.step
        (⟨none, none, none, none⟩ : KiCadPinAcc) := by
  have h := unrecognized_child_keyword_policy
    [Token.openParen, Token.word "frobnicate", Token.closeParen] "frobnicate"
    (by decide)
  exact ⟨h.1 (by decide) _, h.2.1 (by decide) _, h.2.2.1 (by decide) _,
    h.2.2.2.1 (by decide) _, h.2.2.2.2.1 (by decide) _,
    h.2.2.2.2.2.1 (by decide) _, h.2.2.2.2.2.2.1 (by decide) _,
    h.2.2.2.2.2.2.2.1 (by decide) _, h.2.2.2.2.2.2.2.2.1 (by decide) _,
    h.2.2.2.2.2.2.2.2.2.1 (by decide) _, h.2.2.2.2.2.2.2.2.2.2.1 (by decide) _,
    (h.2.2.2.2.2.2.2.2.2.2.2 (by decide)).1 _,
    (h.2.2.2.2.2.2.2.2.2.2.2 (by decide)).2 _ [] []⟩

/-- Number of open markers in a token sequence. -/
def opens (e : Expression) : Nat :=
  e.countP (fun t => t = Token.openParen)

/-- Number of close markers in a token sequence. -/
def closes (e : Expression) : Nat :=
  e.countP (fun t => t = Token.closeParen)

theorem opens_cons (t : Token) (l : List Token) :
    opens (t :: l) = opens l + (if t = Token.openParen then 1 else 0) := by
  simp [opens, List.countP_cons]

theorem closes_cons (t : Token) (l : List Token) :
    closes (t :: l) = closes l + (if t = Token.closeParen then 1 else 0) := by
  simp [closes, List.countP_cons]

/-- The form condition exactly as claim C3 states it: the sequence begins
with an open marker, has equal open and close marker counts, and no
prefix closes more than it has opened. -/
def WeakBalancedForm (f : Expression) : Prop :=
  f.head? = some Token.openParen ∧ opens f = closes f ∧
    ∀ n, n < f.length → closes (f.take n) ≤ opens (f.take n)

/-- A single balanced top-level form: the sequence begins with an open
marker, has equal open and close marker counts, and every proper nonempty
prefix has strictly more opens than closes (so the opening marker is
closed only by the final token). -/
def ProperForm (f : Expression) : Prop :=
  f.head? = some Token.openParen ∧ opens f = closes f ∧
    ∀ n, n < f.length → 0 < n → closes (f.take n) < opens (f.take n)

/-- Processing the body of one form at depth `d + 1`: as long as every
prefix of the body keeps the running depth positive and the body's final
token brings it to zero, the segmenter emits exactly the accumulated
tokens followed by the body, and continues on the rest from the initial
state. -/
theorem subdivideAux_form (rest : List Token) (body : List Token) :
    ∀ (cur : List Token) (d : Nat),
      (∀ n, n < body.length →
        (closes (body.take n) : Int) ≤ (opens (body.take n) : Int) + d) →
      ((closes body : Int) = (opens body : Int) + d + 1) →
      subdivideAux (body ++ rest) cur ((d : Int) + 1) =
        (cur ++ body) :: subdivideAux rest [] 0 := by
  induction body with
  | nil =>
    intro cur d hpre hend
    simp [opens, closes] at hend
    omega
  | cons t ts ih =>
    intro cur d hpre hend
    cases t with
    | openParen =>
      rw [List.cons_append]
      rw [show subdivideAux (Token.openParen :: (ts ++ rest)) cur ((d : Int) + 1) =
        subdivideAux (ts ++ rest) (cur ++ [Token.openParen]) (((d : Int) + 1) + 1) from
        by simp [subdivideAux]]
      have hstep : (((d : Int) + 1) + 1) = (((d + 1 : Nat) : Int) + 1) := by push_cast; ring
      rw [hstep, ih (cur ++ [Token.openParen]) (d + 1) ?_ ?_]
      · simp
      · intro n hn
        have h2 := hpre (n + 1) (by simpa using Nat.succ_lt_succ hn)
        rw [List.take_succ_cons, opens_cons, closes_cons] at h2
        simp at h2
        push_cast
        omega
      · rw [opens_cons, closes_cons] at hend
        simp at hend
        push_cast
        omega
    | closeParen =>
      rcases Nat.eq_zero_or_pos d with hd | hd
      · subst hd
        have hts : ts = [] := by
          by_contra hne
          have hlen : 1 < (Token.closeParen :: ts).length := by
            cases ts with
            | nil => exact absurd rfl hne
            | cons a l => simp
          have h2 := hpre 1 hlen
          rw [show (Token.closeParen :: ts).take 1 = [Token.closeParen] from rfl] at h2
          simp [opens, closes] at h2
        subst hts
        simp [subdivideAux]
      · obtain ⟨d', rfl⟩ : ∃ d', d = d' + 1 := ⟨d - 1, by omega⟩
        rw [List.cons_append]
        rw [show subdivideAux (Token.closeParen :: (ts ++ rest)) cur (((d' + 1 : Nat) : Int) + 1) =
          subdivideAux (ts ++ rest) (cur ++ [Token.closeParen]) ((((d' + 1 : Nat) : Int) + 1) - 1) from
          by rw [subdivideAux]; rw [if_neg (by push_cast; omega)]]
        have hstep : ((((d' + 1 : Nat) : Int) + 1) - 1) = (((d' : Nat) : Int) + 1) := by
          push_cast; ring
        rw [hstep, ih (cur ++ [Token.closeParen]) d' ?_ ?_]
        · simp
        · intro n hn
          have h2 := hpre (n + 1) (by simpa using Nat.succ_lt_succ hn)
          rw [List.take_succ_cons, opens_cons, closes_cons] at h2
          simp at h2
          push_cast
          omega
        · rw [opens_cons, closes_cons] at hend
          simp at hend
          push_cast
          omega
    | word w =>
      rw [List.cons_append]
      rw [show subdivideAux (Token.word w :: (ts ++ rest)) cur ((d : Int) + 1) =
        subdivideAux (ts ++ rest) (cur ++ [Token.word w]) ((d : Int) + 1) from
        by simp [subdivideAux]]
      rw [ih (cur ++ [Token.word w]) d ?_ ?_]
      · simp
      · intro n hn
        have h2 := hpre (n + 1) (by simpa using Nat.succ_lt_succ hn)
        rw [List.take_succ_cons, opens_cons, closes_cons] at h2
        simp at h2
        push_cast
        omega
      · rw [opens_cons, closes_cons] at hend
        simp at hend
        push_cast
        omega

theorem subdivide_concat_of_proper_forms (fs : List Expression)
    (h : ∀ f ∈ fs, ProperForm f) :
    subdivide_expression fs.join = fs := by
  unfold subdivide_expression
  induction fs with
  | nil => rfl
  | cons f fs ih =>
    obtain ⟨hhead, hbal, hpre⟩ := h f (List.mem_cons_self f fs)
    cases f with
    | nil => simp at hhead
    | cons t body =>
      have ht : t = Token.openParen := by simpa using hhead
      subst ht
      rw [show ((Token.openParen :: body) :: fs).join =
        Token.openParen :: (body ++ fs.join) from by simp]
      rw [show subdivideAux (Token.openParen :: (body ++ fs.join)) [] 0 =
        subdivideAux (body ++ fs.join) [Token.openParen] (((0 : Nat) : Int) + 1) from
        by simp [subdivideAux]]
      rw [subdivideAux_form fs.join body [Token.openParen] 0 ?_ ?_]
      · rw [ih (fun g hg => h g (List.mem_cons_of_mem _ hg))]
        simp
      · intro n hn
        have h2 := hpre (n + 1) (by simpa using Nat.succ_lt_succ hn) (Nat.succ_pos n)
        rw [List.take_succ_cons, opens_cons, closes_cons] at h2
        simp at h2
        push_cast
        omega
      · rw [opens_cons, closes_cons] at hbal
        simp at hbal
        push_cast
        omega

/-- Counterexample to C3 as stated: the token sequence `( ) ( )` satisfies
the claim's own form condition (begins with an open marker, equal open
and close counts, no prefix closing more than it has opened), so under
the claim it is one balanced top-level form and, as a concatenation of
N = 1 such forms, the segmenter should return exactly one expression; it
returns two. -/
theorem weak_form_counterexample :
    WeakBalancedForm
        [Token.openParen, Token.closeParen, Token.openParen, Token.closeParen] ∧
      (subdivide_expression
        [Token.openParen, Token.closeParen, Token.openParen,
          Token.closeParen]).length ≠ 1 :=
  ⟨⟨rfl, by decide, by decide⟩, by decide⟩

/-- C3 (amended): for every token sequence formed by concatenating N
single balanced top-level forms — each beginning with an open marker,
with equal open and close marker counts, and with every proper nonempty
prefix keeping strictly more opens than closes — the segmenter returns
exactly the N forms themselves in order: exactly N expressions, each a
single balanced form beginning with an open marker, whose concatenation
is the input sequence. -/
theorem segmenter_on_concatenated_forms (fs : List Expression)
    (h : ∀ f ∈ fs, ProperForm f) :
    subdivide_expression fs.join = fs ∧
      (subdivide_expression fs.join).length = fs.length ∧
      (∀ e ∈ subdivide_expression fs.join, ProperForm e) ∧
      (subdivide_expression fs.join).join = fs.join := by
  have key := subdivide_concat_of_proper_forms fs h
  exact ⟨key, by rw [key], by rw [key]; exact h, by rw [key]⟩

/-- Witness for C3 (amended): the single form `(a)`. -/
theorem segmenter_forms_witness :
    (∀ f ∈ ([[Token.openParen, Token.word "a", Token.closeParen]] :
        List Expression), ProperForm f) ∧
      subdivide_expression ([[Token.openParen, Token.word "a",
          Token.closeParen]] : List Expression).join =
        [[Token.openParen, Token.word "a", Token.closeParen]] := by
  have hf : ∀ f ∈ ([[Token.openParen, Token.word "a", Token.closeParen]] :
      List Expression), ProperForm f := by
    intro f hf
    simp only [List.mem_cons, List.not_mem_nil, or_false] at hf
    subst hf
    exact ⟨rfl, by decide, by decide⟩
  exact ⟨hf, (segmenter_on_concatenated_forms _ hf).1⟩
